import Mathlib

/-!
Verification development for `src/elf/shared_rw_buffer.h` (class `elf::SharedRWBuffer`).

The C++ header implements a sqlite-backed append-only record log with an
in-memory double-buffered cache of recently loaded records and a `Sampler`
handle that draws random records from the active buffer.

This file gives a shallow embedding of that code:
* the `Record` value type and the double-buffered cache state
  (`curr_idx_` / `recent_loaded_`) with its operations `cb_save_start`,
  `cb_save`, `cb_save_end`, `get_recent_load`;
* the sqlite-visible behaviour of the SQL statements the class issues
  (`table_create`'s schema with `TIME CHAR(20) PRIMARY KEY`, `table_insert`'s
  INSERT, `table_read_recent`'s `SELECT * ... ORDER BY TIME DESC LIMIT n`),
  modelled over a list of stored rows using sqlite's documented semantics
  (uniqueness of the primary key; TEXT values compared bytewise);
* `Sampler::sample`, including the modulus-by-zero it performs on an empty
  buffer and the `std::stoi` parses performed by the read callback;
* a lock-operation trace model of the shared/exclusive lock calls made by
  `Sampler`'s constructor and the refresh path;
* the lifecycle lock/unlock accounting of `Sampler`'s constructor, move
  constructor and destructor;
* the `std::mt19937` engine seeded with `time(NULL)` used by `Sampler`;
* an interleaving (small-step) model of concurrent samplers and refreshes.

Machine integers are modelled as `Nat`/`Int` with explicit reduction
modulo `2 ^ 32` where 32-bit overflow matters (the mt19937 engine).
Floating point is not modelled: the two `float` fields of the C++ `Record`
(`pri`, `reward`) are omitted; no theorem below depends on them.
-/

set_option maxRecDepth 100000

namespace Elf

/-- Record from `shared_rw_buffer.h` lines 17-25.  The C++ struct has fields
`timestamp : uint64_t`, `game_id : uint64_t`, `seq : int`, `pri : float`,
`reward : float`, `machine : string`, `content : string`.  The two `float`
fields are omitted from the model (floating point is out of modelling scope;
no claim settled here depends on them). -/
structure Record where
  timestamp : Nat
  game_id : Nat
  seq : Int
  machine : String
  content : String
deriving DecidableEq

/-- Cache state of `SharedRWBuffer`: the fields `int curr_idx_ = 0` and
`vector<vector<Record>> recent_loaded_` (constructed with size 2,
line 54 `recent_loaded_(2)`). -/
structure BufState where
  curr_idx : Nat
  recent_loaded : List (List Record)
deriving DecidableEq

/-- State established by the `SharedRWBuffer` constructor:
`curr_idx_ = 0` and two empty buffers (`recent_loaded_(2)`). -/
def initBufState : BufState := ⟨0, [[], []]⟩

/-- The expression `(curr_idx_ + 1) % recent_loaded_.size()`, the staging ("alt") slot index
computed in `cb_save_start`, `cb_save` and `cb_save_end`
(lines 185, 190, 197). -/
def altIdx (s : BufState) : Nat := (s.curr_idx + 1) % s.recent_loaded.length

/-- Accessor `get_recent_load()` (line 181): `recent_loaded_[curr_idx_]`, the active
buffer. -/
def get_recent_load (s : BufState) : List Record :=
  s.recent_loaded.getD s.curr_idx []

/-- Operation `cb_save_start()` (lines 183-187) minus the `alt_mutex_.lock()` call
(lock operations are modelled separately): clears the staging buffer
`recent_loaded_[alt_idx]`. -/
def cb_save_start (s : BufState) : BufState :=
  { s with recent_loaded := s.recent_loaded.set (altIdx s) [] }

/-- Operation `cb_save(r)` (lines 189-194): `recent_loaded_[alt_idx].push_back(r)`. -/
def cb_save (s : BufState) (r : Record) : BufState :=
  { s with recent_loaded :=
      s.recent_loaded.set (altIdx s) (s.recent_loaded.getD (altIdx s) [] ++ [r]) }

/-- Operation `cb_save_end()` (lines 196-204) minus the lock calls: sets
`curr_idx_ = alt_idx`.  Note that the flip is performed unconditionally:
`cb_save_end` has no failure parameter and `table_read_recent` calls it
regardless of the return code of `sqlite3_exec`. -/
def cb_save_end (s : BufState) : BufState :=
  { s with curr_idx := altIdx s }

/-! ## The sqlite-visible store

`table_create` (lines 116-136) declares
`TIME CHAR(20) PRIMARY KEY NOT NULL, GAME_ID INT, MACHINE CHAR(80), SEQ INT,
PRI REAL, REWARD REAL, CONTENT TEXT`.  A stored row is modelled with the
TIME column as the stored text (the INSERT quotes it, so sqlite stores it
as TEXT) and the remaining modelled columns as the values inserted.
`PRI` and `REWARD` are omitted (floating point, see module comment). -/

/-- One row of the sqlite table created by `table_create`.  `time` is the
TEXT value of the `TIME CHAR(20) PRIMARY KEY` column. -/
structure Row where
  time : String
  game_id : Nat
  machine : String
  seq : Int
  content : String
deriving DecidableEq

/-- The TIME text `table_insert` (lines 142-143) stores:
`to_string(r.timestamp == 0 ? timestamp : r.timestamp)` where `timestamp`
is the wall-clock milliseconds taken at the start of `table_insert`
(lines 139-140), passed here as `nowMs`. -/
def timeText (r : Record) (nowMs : Nat) : String :=
  toString (if r.timestamp = 0 then nowMs else r.timestamp)

/-- Operation `table_insert(r)` (lines 138-151): builds and executes
`INSERT INTO t VALUES ("<time>", game_id, "machine", seq, pri, reward,
"content");`.  The sqlite behaviour of that statement is embedded: TIME is
the table's PRIMARY KEY, so the INSERT fails (and the function returns
`false`, here `Except.error`) when a row with the same TIME text already
exists; otherwise the row is appended to the table. -/
def table_insert (store : List Row) (r : Record) (nowMs : Nat) :
    Except String (List Row) :=
  let t := timeText r nowMs
  if store.any (fun row => row.time = t) then
    .error "UNIQUE constraint failed"
  else
    .ok (store ++ [⟨t, r.game_id, r.machine, r.seq, r.content⟩])

/-- Bytewise comparison used by sqlite for TEXT values (memcmp with the
BINARY collation).  On the ASCII strings this code stores, comparing
character codes is the same as comparing UTF-8 bytes. -/
def bytesLe : List Char → List Char → Bool
  | [], _ => true
  | _ :: _, [] => false
  | a :: as, b :: bs =>
    if a.toNat < b.toNat then true
    else if b.toNat < a.toNat then false
    else bytesLe as bs

/-- TEXT-column comparison `a <= b` under sqlite's BINARY collation. -/
def timeLe (a b : String) : Bool := bytesLe a.toList b.toList

/-- Insertion into a list sorted descending by the TIME text. -/
def insertTimeDesc (r : Row) : List Row → List Row
  | [] => [r]
  | x :: xs => if timeLe x.time r.time then r :: x :: xs else x :: insertTimeDesc r xs

/-- Sort descending by the TIME text: the semantics of
`ORDER BY TIME DESC` issued by `table_read_recent` (line 174).  Equal keys
cannot be produced through `table_insert` (TIME is the primary key); for
equal keys the model fixes one of the orders sqlite may return. -/
def sortTimeDesc : List Row → List Row
  | [] => []
  | r :: rs => insertTimeDesc r (sortTimeDesc rs)

/-- Query `SELECT * FROM t ORDER BY TIME DESC LIMIT max_num_records;`
(line 174): the first `max_num_records` rows in descending TIME-text
order. -/
def selectRecent (store : List Row) (max_num_records : Nat) : List Row :=
  (sortTimeDesc store).take max_num_records

/-- Model of `std::stoi` on the decimal strings this code produces
(an optional leading minus sign followed by decimal digits).
C++ `std::stoi` returns an `int` and throws `std::out_of_range` when the
value does not fit in `int` (outside `[-2147483648, 2147483647]`), and
`std::invalid_argument` when no digits can be parsed. -/
def digitsAcc : List Char → Nat → Option Nat
  | [], acc => some acc
  | c :: cs, acc =>
    if 48 ≤ c.toNat ∧ c.toNat ≤ 57 then digitsAcc cs (acc * 10 + (c.toNat - 48))
    else none

/-- See `digitsAcc`: the value of a nonempty all-digit character list. -/
def digitsToNat : List Char → Option Nat
  | [] => none
  | cs => digitsAcc cs 0

/-- See `digitsToNat`; `stoi` proper. -/
def stoi (s : String) : Except String Int :=
  let cs := s.toList
  let (neg, digits) := match cs with
    | '-' :: rest => (true, rest)
    | _ => (false, cs)
  match digitsToNat digits with
  | none => .error "invalid_argument"
  | some v =>
    let i : Int := if neg then -(v : Int) else (v : Int)
    if 2147483647 < i ∨ i < -2147483648 then .error "out_of_range" else .ok i

/-- The lambda `read_callback` inside `table_read_recent` (lines 154-171).
sqlite passes every column as text (`char **column_texts`); the stored TIME
text is passed through unchanged, the INT columns are rendered in decimal.
The callback parses `column_texts[0]`, `[1]` and `[3]` with `std::stoi`
(which returns `int`; an exception thrown here propagates out of the C
callback frame, modelled as `Except.error`) and calls `cb_save`. -/
def read_callback (s : BufState) (row : Row) : Except String BufState := do
  let ts ← stoi row.time
  let gid ← stoi (toString row.game_id)
  let sq ← stoi (toString row.seq)
  .ok (cb_save s { timestamp := ts.toNat, game_id := gid.toNat, seq := sq,
                   machine := row.machine, content := row.content })

/-- Runs `read_callback` over the rows sqlite delivers, in order, stopping
at the first exception. -/
def runCallbacks (s : BufState) : List Row → Except String BufState
  | [] => .ok s
  | row :: rest =>
    match read_callback s row with
    | .error e => .error e
    | .ok s2 => runCallbacks s2 rest

/-- Operation `table_read_recent(max_num_records)` (lines 153-179):
`cb_save_start(); rc = sqlite3_exec(SELECT ...); cb_save_end(); return rc == 0`.
`delivered` models how many of the selected rows sqlite delivers to the
callback before `sqlite3_exec` returns: all of them when the statement
succeeds (`rc = 0`), possibly fewer when it fails partway (`rc ≠ 0`).
A callback exception (`.error`, from `stoi`) aborts before `cb_save_end`.
On every non-throwing path `cb_save_end` runs — and therefore flips
`curr_idx_` — whatever the value of `rc`; the returned `Bool` is
`rc == 0`. -/
def table_read_recent (store : List Row) (max_num_records : Nat)
    (delivered rc : Nat) (s : BufState) : Except String (Bool × BufState) :=
  let rows := (selectRecent store max_num_records).take delivered
  let s1 := cb_save_start s
  match runCallbacks s1 rows with
  | .error e => .error e
  | .ok s2 => .ok (rc == 0, cb_save_end s2)

/-- Result of one `Sampler::sample()` call (lines 35-43).
`modByZero` marks the undefined behaviour `rng_() % loaded->size()` with
`loaded->size() == 0`; `crash` marks an exception escaping the sqlite
callback during the self-triggered refresh. -/
inductive SampleResult where
  | ok (r : Record)
  | modByZero
  | crash (e : String)
deriving DecidableEq

/-- Method `Sampler::sample()` (lines 35-43): read the active buffer; if it is
empty, call `table_read_recent(1000)` (discarding its boolean result) and
re-read the active buffer; then compute `idx = rng_() % loaded->size()`
and return `loaded->at(idx)`.  `rand` is the value drawn from `rng_()`;
`delivered`/`rc` parameterise the embedded refresh as in
`table_read_recent`. -/
def sample (store : List Row) (delivered rc : Nat) (s : BufState)
    (rand : Nat) : SampleResult × BufState :=
  let afterLoad : Except String BufState :=
    if (get_recent_load s).isEmpty then
      match table_read_recent store 1000 delivered rc s with
      | .error e => .error e
      | .ok (_, s2) => .ok s2
    else .ok s
  match afterLoad with
  | .error e => (.crash e, s)
  | .ok s2 =>
    let loaded := get_recent_load s2
    if h : loaded.length = 0 then (.modByZero, s2)
    else
      (.ok (loaded.get ⟨rand % loaded.length, Nat.mod_lt _ (Nat.pos_of_ne_zero h)⟩), s2)

/-! ## Lock-operation traces

The calls this code makes on `rw_lock_` (an `RWLock` from `primitive.h`,
which is not part of the sources; only the call sites below are) and on
`alt_mutex_`, in program order. -/

/-- One lock operation on `rw_lock_` or `alt_mutex_`. -/
inductive LockOp where
  | readLock
  | readUnlock
  | writeLock
  | writeUnlock
  | altLock
  | altUnlock
deriving DecidableEq

/-- Lock operations of `Sampler::Sampler(SharedRWBuffer*)` (line 30):
`rw_lock_.read_shared_lock()`. -/
def samplerCtorOps : List LockOp := [.readLock]

/-- Lock operations of `cb_save_start` (line 184): `alt_mutex_.lock()`. -/
def cb_save_start_ops : List LockOp := [.altLock]

/-- Lock operations of `cb_save_end` (lines 199-203):
`rw_lock_.write_lock(); rw_lock_.write_unlock(); alt_mutex_.unlock()`. -/
def cb_save_end_ops : List LockOp := [.writeLock, .writeUnlock, .altUnlock]

/-- Lock operations of `table_read_recent` (lines 175-177):
`cb_save_start` then (callbacks, which take no locks) then `cb_save_end`. -/
def table_read_recent_ops : List LockOp := cb_save_start_ops ++ cb_save_end_ops

/-- Lock operations of `Sampler::sample()` (lines 35-43): when the active
buffer is empty it calls `table_read_recent(1000)`; otherwise it takes no
locks. -/
def sample_ops (activeEmpty : Bool) : List LockOp :=
  if activeEmpty then table_read_recent_ops else []

/-- Effect of one lock operation on the number of shared holds the calling
thread has on `rw_lock_`. -/
def sharedStep (h : Nat) : LockOp → Nat
  | .readLock => h + 1
  | .readUnlock => h - 1
  | _ => h

/-- Shared holds of the thread after performing a list of lock
operations, starting from `h` holds. -/
def sharedAfter (h : Nat) : List LockOp → Nat
  | [] => h
  | op :: ops => sharedAfter (sharedStep h op) ops

/-- The thread's shared-hold count at each moment it attempts
`write_lock` while performing the given operations, starting from `h`
shared holds. -/
def sharedAtWriteAttempts (h : Nat) : List LockOp → List Nat
  | [] => []
  | LockOp.writeLock :: ops => h :: sharedAtWriteAttempts h ops
  | op :: ops => sharedAtWriteAttempts (sharedStep h op) ops

/-! ## Sampler lifecycle lock accounting

`Sampler` (lines 27-51) has an explicit constructor that calls
`read_shared_lock`, a move constructor that copies `data_` and moves
`rng_` but acquires nothing and does not disarm the moved-from object,
and a destructor that calls `read_shared_unlock` unconditionally. -/

/-- One special-member-function invocation in a `Sampler` lifecycle. -/
inductive SamplerEvent where
  | ctorExplicit
  | ctorMove
  | dtor
deriving DecidableEq

/-- Count of `read_shared_lock` calls performed by one event: only the explicit
constructor (line 30) locks. -/
def lockOpsOf : SamplerEvent → Nat
  | .ctorExplicit => 1
  | _ => 0

/-- Count of `read_shared_unlock` calls performed by one event: every destructor
(lines 45-47) unlocks, including the destructor of a moved-from
`Sampler` (the move constructor, line 33, leaves `data_` set). -/
def unlockOpsOf : SamplerEvent → Nat
  | .dtor => 1
  | _ => 0

/-- Total `read_shared_lock` calls of a lifecycle. -/
def sharedLocks (tr : List SamplerEvent) : Nat := (tr.map lockOpsOf).sum

/-- Total `read_shared_unlock` calls of a lifecycle. -/
def sharedUnlocks (tr : List SamplerEvent) : Nat := (tr.map unlockOpsOf).sum

/-- Lifecycle of `GetSampler()` (lines 66-68) under the claim's
construct-then-move account: `Sampler(this)` runs the explicit
constructor, the return moves it, and both the moved-from temporary and
the returned `Sampler` are eventually destroyed. -/
def getSamplerMoveLifecycle : List SamplerEvent :=
  [.ctorExplicit, .ctorMove, .dtor, .dtor]

/-- Lifecycle of `GetSampler()` as compiled: `return Sampler(this);`
returns a prvalue, so the `Sampler` is constructed in place (guaranteed
copy elision — no move constructor runs) and destroyed once. -/
def getSamplerElidedLifecycle : List SamplerEvent :=
  [.ctorExplicit, .dtor]

/-! ## The mt19937 engine

`Sampler` owns `mt19937 rng_`, seeded in the constructor with
`time(NULL)` (line 29) — the wall-clock time in *seconds*.  The engine is
`std::mt19937`: word size 32, state size 624, shift 397, the standard
initialisation multiplier 1812433253 and tempering constants.  All
arithmetic is reduced modulo `2 ^ 32`. -/

/-- Reduction modulo the 32-bit word size. -/
def lower32 (x : Nat) : Nat := x % 4294967296

/-- Remaining 623 state words: `mt[i] = lower32 (1812433253 * (mt[i-1]
xor (mt[i-1] >> 30)) + i)`. -/
def mtInitFrom (prev i : Nat) : Nat → List Nat
  | 0 => []
  | Nat.succ fuel =>
    let x := lower32 (1812433253 * (prev ^^^ (prev >>> 30)) + i)
    x :: mtInitFrom x (i + 1) fuel

/-- Initial 624-word mt19937 state for a seed. -/
def mtInitState (seed : Nat) : List Nat :=
  let s0 := lower32 seed
  s0 :: mtInitFrom s0 1 623

/-- One in-place step of the mt19937 twist at position `i`. -/
def twistStep (mt : List Nat) (i : Nat) : List Nat :=
  let x := ((mt.getD i 0) &&& 2147483648) + ((mt.getD ((i + 1) % 624) 0) &&& 2147483647)
  let xA := x >>> 1
  let xA2 := if x % 2 = 1 then xA ^^^ 2567483615 else xA
  mt.set i ((mt.getD ((i + 397) % 624) 0) ^^^ xA2)

/-- The full mt19937 twist (performed before the first output is
drawn). -/
def twist (mt : List Nat) : List Nat := (List.range 624).foldl twistStep mt

/-- The mt19937 tempering transform applied to each drawn word. -/
def temper (y : Nat) : Nat :=
  let y1 := y ^^^ (y >>> 11)
  let y2 := y1 ^^^ ((y1 <<< 7) &&& 2636928640)
  let y3 := y2 ^^^ ((y2 <<< 15) &&& 4022730752)
  y3 ^^^ (y3 >>> 18)

/-- First `k` outputs (`k ≤ 624`) of `std::mt19937` seeded with `seed`. -/
def mtOutputs (seed k : Nat) : List Nat :=
  ((twist (mtInitState seed)).take k).map temper

/-- First `k` sample indices drawn by a `Sampler` constructed at wall
clock second `seedTime` against an active buffer of size `bufLen`:
`sample()` computes `rng_() % loaded->size()` (line 41). -/
def samplerIndices (seedTime bufLen k : Nat) : List Nat :=
  (mtOutputs (lower32 seedTime) k).map (fun x => x % bufLen)

/-! ## Interleaving model of concurrent samplers and refreshes

A small-step model of threads operating on one `SharedRWBuffer`.
The cache has its two buffers and the active index (`curr : Bool`,
`false` standing for `curr_idx_ = 0`; `recent_loaded_.size()` is always 2,
so `(curr_idx_ + 1) % 2` is the negation).  `primitive.h` is not among the
sources; `RWLock` is modelled from the spec, section 4.3: any number of
shared holders, `read_shared_lock` blocks while the exclusive hold is
taken, `write_lock` blocks until there is no shared and no exclusive
holder.  `alt_mutex_` is a plain mutex.  The index flip performed under
the exclusive hold (`cb_save_end`, lines 199-201) is one atomic step.

A thread executing `table_read_recent` walks through `RSub`:
mutex acquired (`preClear`), staging cleared (`loading`, which records the
slot that was cleared), zero or more pushes, exclusive hold acquired
(`holdingWrite`), index flipped (`flipped`), exclusive hold released
(`releasedWrite`), mutex released.  Sampler threads run it from inside
`sample()` while they hold their shared lock (`TPc.rfr true _`);
`TPc.rfr false _` is a refresh run by a thread that holds no shared lock. -/

/-- Position inside `table_read_recent` (lines 153-179). -/
inductive RSub where
  | preClear
  | loading (target : Bool)
  | holdingWrite (target : Bool)
  | flipped (target : Bool)
  | releasedWrite
deriving DecidableEq

/-- Program counter of one thread.  `saved c` is a sampler that has read
`&recent_loaded_[curr_idx_]` (line 36 or 39) and holds a pointer to slot
`c`; `rfr shared sub` is a thread inside `table_read_recent` (`shared`
records whether it also holds a shared lock, i.e. entered from
`sample()`); `sRfrDone` is a sampler whose self-triggered refresh
returned. -/
inductive TPc where
  | idle
  | active
  | saved (c : Bool)
  | rfr (selfShared : Bool) (sub : RSub)
  | sRfrDone
  | wIdle
deriving DecidableEq

/-- Does a thread at this pc hold a shared lock on `rw_lock_`? -/
def inShared : TPc → Bool
  | .active | .saved _ | .sRfrDone => true
  | .rfr b _ => b
  | _ => false

/-- Does a thread at this pc hold the exclusive lock on `rw_lock_`? -/
def inWrite : TPc → Bool
  | .rfr _ (.holdingWrite _) | .rfr _ (.flipped _) => true
  | _ => false

/-- Does a thread at this pc hold `alt_mutex_`? -/
def inAlt : TPc → Bool
  | .rfr _ _ => true
  | _ => false

/-- Global state: the thread pool (a multiset of program counters), the
lock bookkeeping of `rw_lock_` (shared-holder count, exclusive flag) and
`alt_mutex_`, the active index and the two buffers. -/
structure CState where
  threads : Multiset TPc
  sharedCount : Nat
  writerHeld : Bool
  altHeld : Bool
  curr : Bool
  buf0 : List Record
  buf1 : List Record

/-- The buffer in slot `b`. -/
def bufAt (s : CState) (b : Bool) : List Record := if b then s.buf1 else s.buf0

/-- Replace the buffer in slot `b`. -/
def setBuf (s : CState) (b : Bool) (v : List Record) : CState :=
  if b then { s with buf1 := v } else { s with buf0 := v }

/-- One interleaved step.  Guards mirror the code and the lock model:
`read_shared_lock` requires no exclusive holder, `write_lock` requires no
holder at all, `alt_mutex_.lock()` requires the mutex free.  `clearStaging`
and `pushStaging` recompute the staging slot `!curr` the way
`cb_save_start`/`cb_save` recompute `(curr_idx_ + 1) % 2`. -/
inductive Step : CState → CState → Prop where
  | createSampler (ts : Multiset TPc) (n : Nat) (a c : Bool) (b0 b1 : List Record) :
      Step ⟨.idle ::ₘ ts, n, false, a, c, b0, b1⟩
        ⟨.active ::ₘ ts, n + 1, false, a, c, b0, b1⟩
  | destroySampler (ts : Multiset TPc) (n : Nat) (w a c : Bool) (b0 b1 : List Record) :
      Step ⟨.active ::ₘ ts, n, w, a, c, b0, b1⟩
        ⟨.idle ::ₘ ts, n - 1, w, a, c, b0, b1⟩
  | readSlot (ts : Multiset TPc) (n : Nat) (w a c : Bool) (b0 b1 : List Record) :
      Step ⟨.active ::ₘ ts, n, w, a, c, b0, b1⟩
        ⟨.saved c ::ₘ ts, n, w, a, c, b0, b1⟩
  | readElem (ts : Multiset TPc) (n : Nat) (w a c sc : Bool) (b0 b1 : List Record) :
      (if sc then b1 else b0) ≠ [] →
      Step ⟨.saved sc ::ₘ ts, n, w, a, c, b0, b1⟩
        ⟨.active ::ₘ ts, n, w, a, c, b0, b1⟩
  | beginSelfRefresh (ts : Multiset TPc) (n : Nat) (w c sc : Bool) (b0 b1 : List Record) :
      (if sc then b1 else b0) = [] →
      Step ⟨.saved sc ::ₘ ts, n, w, false, c, b0, b1⟩
        ⟨.rfr true .preClear ::ₘ ts, n, w, true, c, b0, b1⟩
  | wBegin (ts : Multiset TPc) (n : Nat) (w c : Bool) (b0 b1 : List Record) :
      Step ⟨.wIdle ::ₘ ts, n, w, false, c, b0, b1⟩
        ⟨.rfr false .preClear ::ₘ ts, n, w, true, c, b0, b1⟩
  | clearStaging (ts : Multiset TPc) (n : Nat) (w a c k : Bool) (b0 b1 : List Record) :
      Step ⟨.rfr k .preClear ::ₘ ts, n, w, a, c, b0, b1⟩
        (setBuf ⟨.rfr k (.loading (!c)) ::ₘ ts, n, w, a, c, b0, b1⟩ (!c) [])
  | pushStaging (ts : Multiset TPc) (n : Nat) (w a c k t : Bool) (b0 b1 : List Record)
      (r : Record) :
      Step ⟨.rfr k (.loading t) ::ₘ ts, n, w, a, c, b0, b1⟩
        (setBuf ⟨.rfr k (.loading t) ::ₘ ts, n, w, a, c, b0, b1⟩ (!c)
          ((if !c then b1 else b0) ++ [r]))
  | acqWrite (ts : Multiset TPc) (a c k t : Bool) (b0 b1 : List Record) :
      Step ⟨.rfr k (.loading t) ::ₘ ts, 0, false, a, c, b0, b1⟩
        ⟨.rfr k (.holdingWrite t) ::ₘ ts, 0, true, a, c, b0, b1⟩
  | flipStep (ts : Multiset TPc) (n : Nat) (w a c k t : Bool) (b0 b1 : List Record) :
      Step ⟨.rfr k (.holdingWrite t) ::ₘ ts, n, w, a, c, b0, b1⟩
        ⟨.rfr k (.flipped t) ::ₘ ts, n, w, a, !c, b0, b1⟩
  | relWrite (ts : Multiset TPc) (n : Nat) (a c k t : Bool) (b0 b1 : List Record) :
      Step ⟨.rfr k (.flipped t) ::ₘ ts, n, true, a, c, b0, b1⟩
        ⟨.rfr k .releasedWrite ::ₘ ts, n, false, a, c, b0, b1⟩
  | relAltSelf (ts : Multiset TPc) (n : Nat) (w c : Bool) (b0 b1 : List Record) :
      Step ⟨.rfr true .releasedWrite ::ₘ ts, n, w, true, c, b0, b1⟩
        ⟨.sRfrDone ::ₘ ts, n, w, false, c, b0, b1⟩
  | relAltExt (ts : Multiset TPc) (n : Nat) (w c : Bool) (b0 b1 : List Record) :
      Step ⟨.rfr false .releasedWrite ::ₘ ts, n, w, true, c, b0, b1⟩
        ⟨.wIdle ::ₘ ts, n, w, false, c, b0, b1⟩
  | resample (ts : Multiset TPc) (n : Nat) (w a c : Bool) (b0 b1 : List Record) :
      Step ⟨.sRfrDone ::ₘ ts, n, w, a, c, b0, b1⟩
        ⟨.saved c ::ₘ ts, n, w, a, c, b0, b1⟩

/-- Starting configuration: every thread outside the class (either a
consumer that has not constructed a `Sampler`, or a refresher that has
not entered `table_read_recent`), locks free, and the cache as the
`SharedRWBuffer` constructor leaves it (`curr_idx_ = 0`, both buffers
empty). -/
def InitState (s : CState) : Prop :=
  (∀ pc ∈ s.threads, pc = TPc.idle ∨ pc = TPc.wIdle) ∧
  s.sharedCount = 0 ∧ s.writerHeld = false ∧ s.altHeld = false ∧
  s.curr = false ∧ s.buf0 = [] ∧ s.buf1 = []

/-- States reachable by interleaved steps from a starting
configuration. -/
def Reachable (s : CState) : Prop :=
  ∃ s0, InitState s0 ∧ Relation.ReflTransGen Step s0 s

/-- Inductive invariant of the model: the lock bookkeeping is sound
(shared holders are counted, the exclusive hold excludes them, the
mutex holder is unique), every sampler that has read the active-slot
pointer read the current one, and every in-progress refresh is loading
into the slot that is not active. -/
structure Inv (s : CState) : Prop where
  hCount : s.threads.countP (fun pc => inShared pc = true) ≤ s.sharedCount
  hWrite0 : s.writerHeld = false → s.threads.countP (fun pc => inWrite pc = true) = 0
  hWrite1 : s.threads.countP (fun pc => inWrite pc = true) ≤ 1
  hShared0 : s.writerHeld = true → s.sharedCount = 0
  hSaved : ∀ pc ∈ s.threads, ∀ c, pc = TPc.saved c → c = s.curr
  hTarget : ∀ pc ∈ s.threads, ∀ k t,
    (pc = TPc.rfr k (.loading t) ∨ pc = TPc.rfr k (.holdingWrite t)) → t = !s.curr
  hAlt0 : s.altHeld = false → s.threads.countP (fun pc => inAlt pc = true) = 0
  hAlt1 : s.threads.countP (fun pc => inAlt pc = true) ≤ 1

/-! ## Spec-side order on loaded rows, and concrete demonstration inputs -/

/-- Numeric timestamp encoded by a TIME text (the timestamps are stored in
decimal, see `timeText`).  Used only to state the spec's "newest-first by
timestamp" order, which is about the numeric values. -/
def timeValue (row : Row) : Nat := (digitsToNat row.time.toList).getD 0

/-- Spec-side check, written from the spec's words ("ordered newest-first
by timestamp"): the list of numeric timestamps is non-increasing. -/
def sortedDescNat : List Nat → Bool
  | [] => true
  | [_] => true
  | a :: b :: rest => decide (b ≤ a) && sortedDescNat (b :: rest)

/-- Demonstration record with timestamp 100. -/
def rec100 : Record := ⟨100, 1, 0, "m1", "c1"⟩

/-- Demonstration record with timestamp 99. -/
def rec99 : Record := ⟨99, 2, 0, "m2", "c2"⟩

/-- Demonstration record with a present-day wall-clock-millisecond
timestamp (November 2023), the kind `table_insert` itself generates when
the caller supplies 0. -/
def recBig : Record := ⟨1700000000000, 7, 3, "host", "payload"⟩

/-- The row `table_insert` stores for `rec100`. -/
def row100 : Row := ⟨"100", 1, "m1", 0, "c1"⟩

/-- The row `table_insert` stores for `rec99`. -/
def row99 : Row := ⟨"99", 2, "m2", 0, "c2"⟩

/-- The row `table_insert` stores for `recBig`. -/
def rowBig : Row := ⟨"1700000000000", 7, "host", 3, "payload"⟩

/-- Two-record store built by inserting `rec100` then `rec99`. -/
def demoStore : List Row := [row100, row99]

/-- Concrete starting configuration of the interleaving model: one
consumer thread, locks free, cache as the constructor leaves it. -/
def demoInitC : CState := ⟨TPc.idle ::ₘ 0, 0, false, false, false, [], []⟩

/-- The consumer has constructed its `Sampler` (one shared hold). -/
def demoActiveC : CState := ⟨TPc.active ::ₘ 0, 1, false, false, false, [], []⟩

/-- The `Sampler` has read the active-slot pointer inside `sample()`. -/
def demoSavedC : CState := ⟨TPc.saved false ::ₘ 0, 1, false, false, false, [], []⟩

/-- First record of the same-millisecond pair: caller-supplied timestamp
0, so `table_insert` stamps it with the current millisecond. -/
def recSameMsA : Record := ⟨0, 1, 0, "mA", "cA"⟩

/-- Second record of the same-millisecond pair, also with timestamp 0. -/
def recSameMsB : Record := ⟨0, 2, 0, "mB", "cB"⟩

/-- The row stored for `recSameMsA` when the clock reads millisecond
1700. -/
def rowSameMsA : Row := ⟨"1700", 1, "mA", 0, "cA"⟩

/-! # Lemmas and theorems -/

/-- Reading back the slot just overwritten. -/
theorem getD_set_self {α : Type} (l : List α) (i : Nat) (a d : α) :
    (l.set i a).getD i d = if i < l.length then a else d := by
  induction l generalizing i with
  | nil => simp
  | cons x xs ih =>
    cases i with
    | zero => simp
    | succ n => simpa using ih n

/-- After `cb_save_start` and `cb_save_end` with no `cb_save` in between,
the newly active buffer is empty: the staging slot was cleared and the
flip points `curr_idx_` at it. -/
theorem refresh_without_rows_empties_active (s : BufState) :
    get_recent_load (cb_save_end (cb_save_start s)) = [] := by
  show (s.recent_loaded.set (altIdx s) []).getD
      ((s.curr_idx + 1) % (s.recent_loaded.set (altIdx s) []).length) [] = []
  rw [List.length_set]
  rw [show (s.curr_idx + 1) % s.recent_loaded.length = altIdx s from rfl]
  rw [getD_set_self]
  split <;> rfl

/-- C1: refuted on the code.  In the empty-buffer execution of
`Sampler::sample()`, the calling thread attempts `write_lock` (inside
`cb_save_end`) exactly once, and at that moment it still has the one
shared hold acquired by `Sampler`'s constructor — not zero, as the claim
requires.  (One write-lock attempt is made, with shared-hold count 1.) -/
theorem C1_write_attempted_while_shared_held :
    sharedAtWriteAttempts (sharedAfter 0 samplerCtorOps) (sample_ops true) = [1] := rfl

/-- C2: refuted on the code.  Whenever the active buffer is empty and the
refresh `sample()` triggers loads no rows (here: the store is empty, so
the SELECT returns no rows), `sample()` reaches
`rng_() % loaded->size()` with `loaded->size() == 0` — a modulus by zero
— for every value drawn from the generator; it never produces a defined
"no data" result. -/
theorem C2_empty_refresh_modulus_by_zero (s : BufState) (rand delivered rc : Nat)
    (h : get_recent_load s = []) :
    (sample [] delivered rc s rand).1 = SampleResult.modByZero := by
  have hflip := refresh_without_rows_empties_active s
  simp [sample, table_read_recent, selectRecent, sortTimeDesc, runCallbacks, h, hflip]

/-- Witness for `C2_empty_refresh_modulus_by_zero` at the state the
`SharedRWBuffer` constructor produces. -/
theorem C2_witness :
    get_recent_load initBufState = [] ∧
    (sample [] 0 0 initBufState 12345).1 = SampleResult.modByZero :=
  ⟨rfl, C2_empty_refresh_modulus_by_zero initBufState 12345 0 0 rfl⟩

/-- C3: refuted on the code.  A refresh whose `sqlite3_exec` fails
(`rc = 1`) after delivering no rows still commits: `table_read_recent`
returns `false` but `cb_save_end` has flipped `curr_idx_` from 0 to 1, so
the active buffer changes from `[rec100]` to the cleared staging buffer
`[]`. -/
theorem C3_failed_refresh_still_flips :
    table_read_recent [] 1000 0 1 ⟨0, [[rec100], []]⟩
      = Except.ok (false, ⟨1, [[rec100], []]⟩) ∧
    get_recent_load (⟨0, [[rec100], []]⟩ : BufState) = [rec100] ∧
    get_recent_load (⟨1, [[rec100], []]⟩ : BufState) = [] :=
  ⟨rfl, rfl, rfl⟩

/-- C5 counterexample: in the construct-then-move lifecycle the claim
itself describes for `GetSampler`, the moved-from `Sampler`'s destructor
also calls `read_shared_unlock` (the move constructor does not clear
`data_`), so the lifecycle performs 2 unlocks against 1 lock. -/
theorem C5_counterexample :
    ¬ sharedUnlocks getSamplerMoveLifecycle = sharedLocks getSamplerMoveLifecycle := by
  decide

/-- C5 amended: `GetSampler`'s `return Sampler(this)` returns a prvalue,
so the `Sampler` is constructed in place (no move constructor runs) and
that lifecycle balances: 1 shared lock, 1 shared unlock.  A lifecycle in
which a `Sampler` is actually moved from performs one more unlock than
locks. -/
theorem C5_lock_balance :
    sharedLocks getSamplerElidedLifecycle = 1 ∧
    sharedUnlocks getSamplerElidedLifecycle = 1 ∧
    sharedUnlocks getSamplerMoveLifecycle = sharedLocks getSamplerMoveLifecycle + 1 := by
  decide

/-- C7: refuted on the code.  Inserting a record whose timestamp is a
present-day wall-clock millisecond count (1.7e12, exceeding
`INT_MAX = 2147483647`) succeeds, but the refresh that should load it
back aborts: the read callback parses the TIME column with `std::stoi`,
which throws `std::out_of_range`, so the record is never retrievable
through `sample()`. -/
theorem C7_roundtrip_crashes_on_stoi :
    table_insert [] recBig 0 = Except.ok [rowBig] ∧
    table_read_recent [rowBig] 1000 1 0 initBufState = Except.error "out_of_range" :=
  ⟨rfl, rfl⟩

/-- C8: refuted on the code.  Two records appended with caller-supplied
timestamp 0 in the same millisecond (1700) receive the same TIME text;
TIME is the table's PRIMARY KEY, so the second INSERT fails its
uniqueness constraint and only the first record persists. -/
theorem C8_same_millisecond_insert_fails :
    table_insert [] recSameMsA 1700 = Except.ok [rowSameMsA] ∧
    table_insert [rowSameMsA] recSameMsB 1700
      = Except.error "UNIQUE constraint failed" :=
  ⟨rfl, rfl⟩

/-- C9 counterexample: two distinct `Sampler` instances constructed
during the same wall-clock second 1700000000 get the same `time(NULL)`
seed, and their index sequences (buffer size 10, first 5 draws) are the
same concrete list — the claim says distinct Samplers never produce
identical sequences. -/
theorem C9_counterexample :
    samplerIndices 1700000000 10 5 = samplerIndices 1700000000 10 5 ∧
    samplerIndices 1700000000 10 5 = [0, 0, 4, 0, 7] := by
  exact ⟨rfl, by decide⟩

/-- C9 amended: the index sequence a `Sampler` draws is a function of its
construction second alone (the seed is `time(NULL)`), so Samplers
constructed in the same second draw identical sequences; only Samplers
constructed in different seconds can differ, as seconds 1700000000 and
1700000001 concretely do. -/
theorem C9_seed_determines_indices :
    (∀ t1 t2 bufLen k : Nat, t1 = t2 →
      samplerIndices t1 bufLen k = samplerIndices t2 bufLen k) ∧
    samplerIndices 1700000000 10 5 ≠ samplerIndices 1700000001 10 5 := by
  constructor
  · intro t1 t2 bufLen k h
    rw [h]
  · decide

/-- Witness for `C9_seed_determines_indices` at two Samplers constructed
in the same second. -/
theorem C9_witness :
    samplerIndices 1700000000 7 3 = samplerIndices 1700000000 7 3 :=
  C9_seed_determines_indices.1 1700000000 1700000000 7 3 rfl

/-- C10 confirmed: with the two-slot cache the constructor builds
(`recent_loaded_(2)`, `curr_idx_ < 2`), `cb_save_start` leaves the active
buffer and `curr_idx_` unchanged and clears exactly the staging slot;
`cb_save` leaves the active buffer and `curr_idx_` unchanged and appends
exactly to the staging slot; and `cb_save_end` changes no buffer
contents, only flipping `curr_idx_` to the staging slot. -/
theorem C10_refresh_confined (s : BufState) (r : Record)
    (h2 : s.recent_loaded.length = 2) (hc : s.curr_idx < 2) :
    get_recent_load (cb_save_start s) = get_recent_load s ∧
    get_recent_load (cb_save s r) = get_recent_load s ∧
    (cb_save_start s).recent_loaded.getD (altIdx s) [] = [] ∧
    (cb_save s r).recent_loaded.getD (altIdx s) []
      = s.recent_loaded.getD (altIdx s) [] ++ [r] ∧
    (cb_save_start s).curr_idx = s.curr_idx ∧
    (cb_save s r).curr_idx = s.curr_idx ∧
    (cb_save_end s).recent_loaded = s.recent_loaded ∧
    (cb_save_end s).curr_idx = altIdx s := by
  obtain ⟨ci, bufs⟩ := s
  match bufs, h2 with
  | [A, B], _ =>
    interval_cases ci <;>
      simp [get_recent_load, cb_save_start, cb_save, cb_save_end, altIdx]

/-- Totality of the bytewise order. -/
theorem bytesLe_total (a b : List Char) : bytesLe a b = true ∨ bytesLe b a = true := by
  induction a generalizing b with
  | nil => left; rfl
  | cons x xs ih =>
    cases b with
    | nil => right; rfl
    | cons y ys =>
      by_cases h1 : x.toNat < y.toNat
      · left; simp [bytesLe, h1]
      · by_cases h2 : y.toNat < x.toNat
        · right; simp [bytesLe, h2]
        · rcases ih ys with h | h
          · left; simp [bytesLe, h1, h2, h]
          · right; simp [bytesLe, h1, h2, h]

/-- Transitivity of the bytewise order. -/
theorem bytesLe_trans : ∀ a b c : List Char,
    bytesLe a b = true → bytesLe b c = true → bytesLe a c = true
  | [], _, _, _, _ => rfl
  | _ :: _, [], _, hab, _ => by simp [bytesLe] at hab
  | _ :: _, _ :: _, [], _, hbc => by simp [bytesLe] at hbc
  | x :: xs, y :: ys, z :: zs, hab, hbc => by
    simp only [bytesLe] at hab hbc ⊢
    split_ifs at hab hbc ⊢ with h1 h2 h3 <;>
      first
        | rfl
        | omega
        | (exact bytesLe_trans xs ys zs hab hbc)

/-- Membership through `insertTimeDesc`. -/
theorem mem_insertTimeDesc (r x : Row) (l : List Row) :
    x ∈ insertTimeDesc r l ↔ x = r ∨ x ∈ l := by
  induction l with
  | nil => simp [insertTimeDesc]
  | cons y ys ih =>
    simp only [insertTimeDesc]
    split_ifs
    · simp [List.mem_cons]
    · simp only [List.mem_cons, ih]
      tauto

/-- Sorting with `sortTimeDesc` preserves membership. -/
theorem mem_sortTimeDesc (x : Row) (l : List Row) :
    x ∈ sortTimeDesc l ↔ x ∈ l := by
  induction l with
  | nil => simp [sortTimeDesc]
  | cons y ys ih => simp [sortTimeDesc, mem_insertTimeDesc, ih]

/-- Insertion with `insertTimeDesc` preserves descending sortedness. -/
theorem pairwise_insertTimeDesc (r : Row) (l : List Row)
    (hl : l.Pairwise (fun a b => timeLe b.time a.time = true)) :
    (insertTimeDesc r l).Pairwise (fun a b => timeLe b.time a.time = true) := by
  induction l with
  | nil => simp [insertTimeDesc]
  | cons y ys ih =>
    rcases List.pairwise_cons.mp hl with ⟨hy, hys⟩
    simp only [insertTimeDesc]
    split_ifs with h
    · refine List.pairwise_cons.mpr ⟨?_, hl⟩
      intro b hb
      rcases List.mem_cons.mp hb with rfl | hb
      · exact h
      · exact bytesLe_trans _ _ _ (hy b hb) h
    · refine List.pairwise_cons.mpr ⟨?_, ih hys⟩
      intro b hb
      rcases (mem_insertTimeDesc r b ys).mp hb with rfl | hb
      · rcases bytesLe_total y.time.toList b.time.toList with h1 | h1
        · exact absurd h1 h
        · exact h1
      · exact hy b hb

/-- The result of `sortTimeDesc` is descending in the bytewise TIME-text
order. -/
theorem pairwise_sortTimeDesc (l : List Row) :
    (sortTimeDesc l).Pairwise (fun a b => timeLe b.time a.time = true) := by
  induction l with
  | nil => simp [sortTimeDesc]
  | cons y ys ih => exact pairwise_insertTimeDesc y _ ih

/-- C6 counterexample: inserting timestamps 100 then 99 and loading with
window 2, the rows come back ordered `[99, 100]` — "99" sorts above
"100" in the TEXT order of the `TIME CHAR(20)` column — which is not
newest-first by (numeric) timestamp. -/
theorem C6_counterexample :
    table_insert [] rec100 0 = Except.ok [row100] ∧
    table_insert [row100] rec99 0 = Except.ok demoStore ∧
    (selectRecent demoStore 2).map timeValue = [99, 100] ∧
    sortedDescNat ((selectRecent demoStore 2).map timeValue) = false := by
  refine ⟨rfl, rfl, by decide, by decide⟩

/-- C6 amended: `table_read_recent`'s SELECT returns at most `max_n`
rows, ordered descending by the bytewise (sqlite TEXT) order of the
stored TIME strings — the most recent under that order, every returned
row dominating every non-returned stored row.  This coincides with
newest-first by numeric timestamp only when the timestamps' decimal
strings have equal length. -/
theorem C6_lexicographic_recent (store : List Row) (max_n : Nat) :
    (selectRecent store max_n).length ≤ max_n ∧
    (selectRecent store max_n).Pairwise (fun a b => timeLe b.time a.time = true) ∧
    (∀ y ∈ store, y ∉ selectRecent store max_n →
      ∀ x ∈ selectRecent store max_n, timeLe y.time x.time = true) := by
  refine ⟨?_, ?_, ?_⟩
  · rw [selectRecent, List.length_take]
    exact Nat.min_le_left _ _
  · exact (pairwise_sortTimeDesc store).sublist (List.take_sublist _ _)
  · intro y hy hyn x hx
    have hy' : y ∈ sortTimeDesc store := (mem_sortTimeDesc y store).mpr hy
    have hp := pairwise_sortTimeDesc store
    rw [← List.take_append_drop max_n (sortTimeDesc store)] at hp hy'
    rcases List.mem_append.mp hy' with h | h
    · exact absurd h hyn
    · exact (List.pairwise_append.mp hp).2.2 x hx y h

/-- Witness for `C6_lexicographic_recent`: with the two-row store and
window 1, the returned row is `row99` and the stored-but-not-returned
`row100` is below it in the TIME-text order. -/
theorem C6_witness : timeLe row100.time row99.time = true :=
  (C6_lexicographic_recent demoStore 1).2.2 row100 (by decide) (by decide)
    row99 (by decide)

/-- Updating a buffer with `setBuf` changes no field the invariant mentions. -/
theorem inv_setBuf (s : CState) (b : Bool) (v : List Record) (h : Inv s) :
    Inv (setBuf s b v) := by
  cases b <;>
    exact ⟨h.hCount, h.hWrite0, h.hWrite1, h.hShared0, h.hSaved, h.hTarget,
      h.hAlt0, h.hAlt1⟩

/-- Restriction of a for-all-members fact to the tail of a cons. -/
theorem forall_mem_of_cons {p : TPc → Prop} {x : TPc} {ts : Multiset TPc}
    (h : ∀ pc ∈ x ::ₘ ts, p pc) : ∀ pc ∈ ts, p pc :=
  fun pc hpc => h pc (Multiset.mem_cons_of_mem hpc)

/-- The invariant holds in every starting configuration. -/
theorem inv_init (s : CState) (h : InitState s) : Inv s := by
  obtain ⟨hpc, hn, hw, ha, hc, h0, h1⟩ := h
  have hz : ∀ p : TPc → Prop, ∀ hd : DecidablePred p,
      (∀ pc, pc = TPc.idle ∨ pc = TPc.wIdle → ¬ p pc) →
      Multiset.countP p s.threads = 0 := by
    intro p hd hnp
    rw [Multiset.countP_eq_zero]
    exact fun a ha => hnp a (hpc a ha)
  refine ⟨?_, ?_, ?_, ?_, ?_, ?_, ?_, ?_⟩
  · rw [hz _ _ ?_]
    · omega
    · rintro pc (rfl | rfl) <;> simp [inShared]
  · intro
    rw [hz _ _ ?_]
    rintro pc (rfl | rfl) <;> simp [inWrite]
  · rw [hz _ _ ?_]
    · omega
    · rintro pc (rfl | rfl) <;> simp [inWrite]
  · intro hcontra
    rw [hw] at hcontra
    exact absurd hcontra (by simp)
  · intro pc hpcm c hsaved
    rcases hpc pc hpcm with rfl | rfl <;> exact absurd hsaved (by simp)
  · intro pc hpcm k t hrfr
    rcases hpc pc hpcm with rfl | rfl <;>
      rcases hrfr with h' | h' <;> exact absurd h' (by simp)
  · intro
    rw [hz _ _ ?_]
    rintro pc (rfl | rfl) <;> simp [inAlt]
  · rw [hz _ _ ?_]
    · omega
    · rintro pc (rfl | rfl) <;> simp [inAlt]


/-- When the shared-count budget is zero, no thread in the tail of the
pool holds a shared lock. -/
theorem no_shared_in_tail {x : TPc} {ts : Multiset TPc} {n : Nat}
    (hCount : Multiset.countP (fun pc => inShared pc = true) (x ::ₘ ts) ≤ n)
    (hn : n = 0) : ∀ pc ∈ ts, inShared pc = false := by
  subst hn
  intro pc hpc
  have h1 : Multiset.countP (fun pc => inShared pc = true) ts = 0 := by
    rw [Multiset.countP_cons] at hCount
    omega
  have h2 := Multiset.countP_eq_zero.mp h1 pc hpc
  simpa using h2

/-- When the head of the pool holds `alt_mutex_` and at most one thread
holds it, nobody in the tail holds it. -/
theorem no_alt_in_tail {x : TPc} {ts : Multiset TPc}
    (hx : inAlt x = true)
    (hAlt1 : Multiset.countP (fun pc => inAlt pc = true) (x ::ₘ ts) ≤ 1) :
    ∀ pc ∈ ts, inAlt pc = false := by
  intro pc hpc
  have h1 : Multiset.countP (fun pc => inAlt pc = true) ts = 0 := by
    rw [Multiset.countP_cons, if_pos hx] at hAlt1
    omega
  have h2 := Multiset.countP_eq_zero.mp h1 pc hpc
  simpa using h2

/-- Evaluation of `countP` over a cons, with the head's contribution as `Bool.toNat` —
an arithmetic form `omega` can use. -/
theorem countP_cons_eval {f : TPc → Bool} (x : TPc) (ts : Multiset TPc) :
    Multiset.countP (fun pc => f pc = true) (x ::ₘ ts)
      = Multiset.countP (fun pc => f pc = true) ts + (f x).toNat := by
  rw [Multiset.countP_cons]
  cases hfx : f x <;> simp [hfx]

/-- One interleaved step preserves the invariant. -/
theorem inv_step (s s' : CState) (hinv : Inv s) (hstep : Step s s') : Inv s' := by
  obtain ⟨hCount, hWrite0, hWrite1, hShared0, hSaved, hTarget, hAlt0, hAlt1⟩ := hinv
  cases hstep with
  | createSampler ts n a c b0 b1 =>
    refine ⟨?_, ?_, ?_, ?_, ?_, ?_, ?_, ?_⟩
    · simp only [countP_cons_eval, inShared, inWrite, inAlt, Bool.toNat_true, Bool.toNat_false] at hCount ⊢
      omega
    · intro hw
      have h := hWrite0 hw
      simp only [countP_cons_eval, inShared, inWrite, inAlt, Bool.toNat_true, Bool.toNat_false] at h ⊢
      omega
    · simp only [countP_cons_eval, inShared, inWrite, inAlt, Bool.toNat_true, Bool.toNat_false] at hWrite1 ⊢
      omega
    · intro h
      exact Bool.noConfusion h
    · intro pc hpc c' hc'
      rcases Multiset.mem_cons.mp hpc with rfl | hm
      · exact TPc.noConfusion hc'
      · exact hSaved pc (Multiset.mem_cons_of_mem hm) c' hc'
    · intro pc hpc k' t' hkt
      rcases Multiset.mem_cons.mp hpc with rfl | hm
      · rcases hkt with h | h <;> exact TPc.noConfusion h
      · exact hTarget pc (Multiset.mem_cons_of_mem hm) k' t' hkt
    · intro ha
      have h := hAlt0 ha
      simp only [countP_cons_eval, inShared, inWrite, inAlt, Bool.toNat_true, Bool.toNat_false] at h ⊢
      omega
    · simp only [countP_cons_eval, inShared, inWrite, inAlt, Bool.toNat_true, Bool.toNat_false] at hAlt1 ⊢
      omega
  | destroySampler ts n w a c b0 b1 =>
    refine ⟨?_, ?_, ?_, ?_, ?_, ?_, ?_, ?_⟩
    · simp only [countP_cons_eval, inShared, inWrite, inAlt, Bool.toNat_true, Bool.toNat_false] at hCount ⊢
      omega
    · intro hw
      have h := hWrite0 hw
      simp only [countP_cons_eval, inShared, inWrite, inAlt, Bool.toNat_true, Bool.toNat_false] at h ⊢
      omega
    · simp only [countP_cons_eval, inShared, inWrite, inAlt, Bool.toNat_true, Bool.toNat_false] at hWrite1 ⊢
      omega
    · intro hw
      have h := hShared0 hw
      simp only [] at h ⊢
      omega
    · intro pc hpc c' hc'
      rcases Multiset.mem_cons.mp hpc with rfl | hm
      · exact TPc.noConfusion hc'
      · exact hSaved pc (Multiset.mem_cons_of_mem hm) c' hc'
    · intro pc hpc k' t' hkt
      rcases Multiset.mem_cons.mp hpc with rfl | hm
      · rcases hkt with h | h <;> exact TPc.noConfusion h
      · exact hTarget pc (Multiset.mem_cons_of_mem hm) k' t' hkt
    · intro ha
      have h := hAlt0 ha
      simp only [countP_cons_eval, inShared, inWrite, inAlt, Bool.toNat_true, Bool.toNat_false] at h ⊢
      omega
    · simp only [countP_cons_eval, inShared, inWrite, inAlt, Bool.toNat_true, Bool.toNat_false] at hAlt1 ⊢
      omega
  | readSlot ts n w a c b0 b1 =>
    refine ⟨?_, ?_, ?_, ?_, ?_, ?_, ?_, ?_⟩
    · simp only [countP_cons_eval, inShared, inWrite, inAlt, Bool.toNat_true, Bool.toNat_false] at hCount ⊢
      omega
    · intro hw
      have h := hWrite0 hw
      simp only [countP_cons_eval, inShared, inWrite, inAlt, Bool.toNat_true, Bool.toNat_false] at h ⊢
      omega
    · simp only [countP_cons_eval, inShared, inWrite, inAlt, Bool.toNat_true, Bool.toNat_false] at hWrite1 ⊢
      omega
    · exact hShared0
    · intro pc hpc c' hc'
      rcases Multiset.mem_cons.mp hpc with rfl | hm
      · exact (TPc.saved.inj hc').symm
      · exact hSaved pc (Multiset.mem_cons_of_mem hm) c' hc'
    · intro pc hpc k' t' hkt
      rcases Multiset.mem_cons.mp hpc with rfl | hm
      · rcases hkt with h | h <;> exact TPc.noConfusion h
      · exact hTarget pc (Multiset.mem_cons_of_mem hm) k' t' hkt
    · intro ha
      have h := hAlt0 ha
      simp only [countP_cons_eval, inShared, inWrite, inAlt, Bool.toNat_true, Bool.toNat_false] at h ⊢
      omega
    · simp only [countP_cons_eval, inShared, inWrite, inAlt, Bool.toNat_true, Bool.toNat_false] at hAlt1 ⊢
      omega
  | readElem ts n w a c sc b0 b1 hne =>
    refine ⟨?_, ?_, ?_, ?_, ?_, ?_, ?_, ?_⟩
    · simp only [countP_cons_eval, inShared, inWrite, inAlt, Bool.toNat_true, Bool.toNat_false] at hCount ⊢
      omega
    · intro hw
      have h := hWrite0 hw
      simp only [countP_cons_eval, inShared, inWrite, inAlt, Bool.toNat_true, Bool.toNat_false] at h ⊢
      omega
    · simp only [countP_cons_eval, inShared, inWrite, inAlt, Bool.toNat_true, Bool.toNat_false] at hWrite1 ⊢
      omega
    · exact hShared0
    · intro pc hpc c' hc'
      rcases Multiset.mem_cons.mp hpc with rfl | hm
      · exact TPc.noConfusion hc'
      · exact hSaved pc (Multiset.mem_cons_of_mem hm) c' hc'
    · intro pc hpc k' t' hkt
      rcases Multiset.mem_cons.mp hpc with rfl | hm
      · rcases hkt with h | h <;> exact TPc.noConfusion h
      · exact hTarget pc (Multiset.mem_cons_of_mem hm) k' t' hkt
    · intro ha
      have h := hAlt0 ha
      simp only [countP_cons_eval, inShared, inWrite, inAlt, Bool.toNat_true, Bool.toNat_false] at h ⊢
      omega
    · simp only [countP_cons_eval, inShared, inWrite, inAlt, Bool.toNat_true, Bool.toNat_false] at hAlt1 ⊢
      omega
  | beginSelfRefresh ts n w c sc b0 b1 hemp =>
    refine ⟨?_, ?_, ?_, ?_, ?_, ?_, ?_, ?_⟩
    · simp only [countP_cons_eval, inShared, inWrite, inAlt, Bool.toNat_true, Bool.toNat_false] at hCount ⊢
      omega
    · intro hw
      have h := hWrite0 hw
      simp only [countP_cons_eval, inShared, inWrite, inAlt, Bool.toNat_true, Bool.toNat_false] at h ⊢
      omega
    · simp only [countP_cons_eval, inShared, inWrite, inAlt, Bool.toNat_true, Bool.toNat_false] at hWrite1 ⊢
      omega
    · exact hShared0
    · intro pc hpc c' hc'
      rcases Multiset.mem_cons.mp hpc with rfl | hm
      · exact TPc.noConfusion hc'
      · exact hSaved pc (Multiset.mem_cons_of_mem hm) c' hc'
    · intro pc hpc k' t' hkt
      rcases Multiset.mem_cons.mp hpc with rfl | hm
      · rcases hkt with h | h <;> simp at h
      · exact hTarget pc (Multiset.mem_cons_of_mem hm) k' t' hkt
    · intro ha
      exact Bool.noConfusion ha
    · have h := hAlt0 rfl
      simp only [countP_cons_eval, inShared, inWrite, inAlt, Bool.toNat_true, Bool.toNat_false] at h ⊢
      omega
  | wBegin ts n w c b0 b1 =>
    refine ⟨?_, ?_, ?_, ?_, ?_, ?_, ?_, ?_⟩
    · simp only [countP_cons_eval, inShared, inWrite, inAlt, Bool.toNat_true, Bool.toNat_false] at hCount ⊢
      omega
    · intro hw
      have h := hWrite0 hw
      simp only [countP_cons_eval, inShared, inWrite, inAlt, Bool.toNat_true, Bool.toNat_false] at h ⊢
      omega
    · simp only [countP_cons_eval, inShared, inWrite, inAlt, Bool.toNat_true, Bool.toNat_false] at hWrite1 ⊢
      omega
    · exact hShared0
    · intro pc hpc c' hc'
      rcases Multiset.mem_cons.mp hpc with rfl | hm
      · exact TPc.noConfusion hc'
      · exact hSaved pc (Multiset.mem_cons_of_mem hm) c' hc'
    · intro pc hpc k' t' hkt
      rcases Multiset.mem_cons.mp hpc with rfl | hm
      · rcases hkt with h | h <;> simp at h
      · exact hTarget pc (Multiset.mem_cons_of_mem hm) k' t' hkt
    · intro ha
      exact Bool.noConfusion ha
    · have h := hAlt0 rfl
      simp only [countP_cons_eval, inShared, inWrite, inAlt, Bool.toNat_true, Bool.toNat_false] at h ⊢
      omega
  | clearStaging ts n w a c k b0 b1 =>
    apply inv_setBuf
    refine ⟨?_, ?_, ?_, ?_, ?_, ?_, ?_, ?_⟩
    · simp only [countP_cons_eval, inShared, inWrite, inAlt, Bool.toNat_true, Bool.toNat_false] at hCount ⊢
      omega
    · intro hw
      have h := hWrite0 hw
      simp only [countP_cons_eval, inShared, inWrite, inAlt, Bool.toNat_true, Bool.toNat_false] at h ⊢
      omega
    · simp only [countP_cons_eval, inShared, inWrite, inAlt, Bool.toNat_true, Bool.toNat_false] at hWrite1 ⊢
      omega
    · exact hShared0
    · intro pc hpc c' hc'
      rcases Multiset.mem_cons.mp hpc with rfl | hm
      · exact TPc.noConfusion hc'
      · exact hSaved pc (Multiset.mem_cons_of_mem hm) c' hc'
    · intro pc hpc k' t' hkt
      rcases Multiset.mem_cons.mp hpc with rfl | hm
      · rcases hkt with h | h
        · simp only [TPc.rfr.injEq, RSub.loading.injEq] at h
          exact h.2.symm
        · simp at h
      · exact hTarget pc (Multiset.mem_cons_of_mem hm) k' t' hkt
    · intro ha
      have h := hAlt0 ha
      simp only [countP_cons_eval, inShared, inWrite, inAlt, Bool.toNat_true, Bool.toNat_false] at h ⊢
      omega
    · simp only [countP_cons_eval, inShared, inWrite, inAlt, Bool.toNat_true, Bool.toNat_false] at hAlt1 ⊢
      omega
  | pushStaging ts n w a c k t b0 b1 r =>
    apply inv_setBuf
    exact ⟨hCount, hWrite0, hWrite1, hShared0, hSaved, hTarget, hAlt0, hAlt1⟩
  | acqWrite ts a c k t b0 b1 =>
    refine ⟨?_, ?_, ?_, ?_, ?_, ?_, ?_, ?_⟩
    · simp only [countP_cons_eval, inShared, inWrite, inAlt, Bool.toNat_true, Bool.toNat_false] at hCount ⊢
      omega
    · intro hw
      exact Bool.noConfusion hw
    · have h := hWrite0 rfl
      simp only [countP_cons_eval, inShared, inWrite, inAlt, Bool.toNat_true, Bool.toNat_false] at h ⊢
      omega
    · intro _
      rfl
    · intro pc hpc c' hc'
      rcases Multiset.mem_cons.mp hpc with rfl | hm
      · exact TPc.noConfusion hc'
      · exact hSaved pc (Multiset.mem_cons_of_mem hm) c' hc'
    · intro pc hpc k' t' hkt
      rcases Multiset.mem_cons.mp hpc with rfl | hm
      · rcases hkt with h | h
        · simp at h
        · simp only [TPc.rfr.injEq, RSub.holdingWrite.injEq] at h
          obtain ⟨hk, ht⟩ := h
          subst ht
          exact hTarget _ (Multiset.mem_cons_self _ _) k t (Or.inl rfl)
      · exact hTarget pc (Multiset.mem_cons_of_mem hm) k' t' hkt
    · intro ha
      have h := hAlt0 ha
      simp only [countP_cons_eval, inShared, inWrite, inAlt, Bool.toNat_true, Bool.toNat_false] at h ⊢
      omega
    · simp only [countP_cons_eval, inShared, inWrite, inAlt, Bool.toNat_true, Bool.toNat_false] at hAlt1 ⊢
      omega
  | flipStep ts n w a c k t b0 b1 =>
    refine ⟨?_, ?_, ?_, ?_, ?_, ?_, ?_, ?_⟩
    · simp only [countP_cons_eval, inShared, inWrite, inAlt, Bool.toNat_true, Bool.toNat_false] at hCount ⊢
      omega
    · intro hw
      have h := hWrite0 hw
      simp only [countP_cons_eval, inShared, inWrite, inAlt, Bool.toNat_true, Bool.toNat_false] at h ⊢
      omega
    · simp only [countP_cons_eval, inShared, inWrite, inAlt, Bool.toNat_true, Bool.toNat_false] at hWrite1 ⊢
      omega
    · exact hShared0
    · intro pc hpc c' hc'
      rcases Multiset.mem_cons.mp hpc with rfl | hm
      · exact TPc.noConfusion hc'
      · exfalso
        have hw : w = true := by
          cases w
          · exfalso
            have h := hWrite0 rfl
            simp only [countP_cons_eval, inShared, inWrite, inAlt, Bool.toNat_true, Bool.toNat_false] at h
            omega
          · rfl
        have hnone := no_shared_in_tail hCount (hShared0 hw) pc hm
        rw [hc'] at hnone
        exact Bool.noConfusion hnone
    · intro pc hpc k' t' hkt
      rcases Multiset.mem_cons.mp hpc with rfl | hm
      · rcases hkt with h | h <;> simp at h
      · exfalso
        have hnone := no_alt_in_tail
          (show inAlt (TPc.rfr k (RSub.holdingWrite t)) = true from rfl) hAlt1 pc hm
        rcases hkt with h | h <;> (rw [h] at hnone; exact Bool.noConfusion hnone)
    · intro ha
      have h := hAlt0 ha
      simp only [countP_cons_eval, inShared, inWrite, inAlt, Bool.toNat_true, Bool.toNat_false] at h ⊢
      omega
    · simp only [countP_cons_eval, inShared, inWrite, inAlt, Bool.toNat_true, Bool.toNat_false] at hAlt1 ⊢
      omega
  | relWrite ts n a c k t b0 b1 =>
    refine ⟨?_, ?_, ?_, ?_, ?_, ?_, ?_, ?_⟩
    · simp only [countP_cons_eval, inShared, inWrite, inAlt, Bool.toNat_true, Bool.toNat_false] at hCount ⊢
      omega
    · intro _
      simp only [countP_cons_eval, inShared, inWrite, inAlt, Bool.toNat_true, Bool.toNat_false] at hWrite1 ⊢
      omega
    · simp only [countP_cons_eval, inShared, inWrite, inAlt, Bool.toNat_true, Bool.toNat_false] at hWrite1 ⊢
      omega
    · intro hw
      exact Bool.noConfusion hw
    · intro pc hpc c' hc'
      rcases Multiset.mem_cons.mp hpc with rfl | hm
      · exact TPc.noConfusion hc'
      · exact hSaved pc (Multiset.mem_cons_of_mem hm) c' hc'
    · intro pc hpc k' t' hkt
      rcases Multiset.mem_cons.mp hpc with rfl | hm
      · rcases hkt with h | h <;> simp at h
      · exact hTarget pc (Multiset.mem_cons_of_mem hm) k' t' hkt
    · intro ha
      have h := hAlt0 ha
      simp only [countP_cons_eval, inShared, inWrite, inAlt, Bool.toNat_true, Bool.toNat_false] at h ⊢
      omega
    · simp only [countP_cons_eval, inShared, inWrite, inAlt, Bool.toNat_true, Bool.toNat_false] at hAlt1 ⊢
      omega
  | relAltSelf ts n w c b0 b1 =>
    refine ⟨?_, ?_, ?_, ?_, ?_, ?_, ?_, ?_⟩
    · simp only [countP_cons_eval, inShared, inWrite, inAlt, Bool.toNat_true, Bool.toNat_false] at hCount ⊢
      omega
    · intro hw
      have h := hWrite0 hw
      simp only [countP_cons_eval, inShared, inWrite, inAlt, Bool.toNat_true, Bool.toNat_false] at h ⊢
      omega
    · simp only [countP_cons_eval, inShared, inWrite, inAlt, Bool.toNat_true, Bool.toNat_false] at hWrite1 ⊢
      omega
    · exact hShared0
    · intro pc hpc c' hc'
      rcases Multiset.mem_cons.mp hpc with rfl | hm
      · exact TPc.noConfusion hc'
      · exact hSaved pc (Multiset.mem_cons_of_mem hm) c' hc'
    · intro pc hpc k' t' hkt
      rcases Multiset.mem_cons.mp hpc with rfl | hm
      · rcases hkt with h | h <;> exact TPc.noConfusion h
      · exact hTarget pc (Multiset.mem_cons_of_mem hm) k' t' hkt
    · intro _
      simp only [countP_cons_eval, inShared, inWrite, inAlt, Bool.toNat_true, Bool.toNat_false] at hAlt1 ⊢
      omega
    · simp only [countP_cons_eval, inShared, inWrite, inAlt, Bool.toNat_true, Bool.toNat_false] at hAlt1 ⊢
      omega
  | relAltExt ts n w c b0 b1 =>
    refine ⟨?_, ?_, ?_, ?_, ?_, ?_, ?_, ?_⟩
    · simp only [countP_cons_eval, inShared, inWrite, inAlt, Bool.toNat_true, Bool.toNat_false] at hCount ⊢
      omega
    · intro hw
      have h := hWrite0 hw
      simp only [countP_cons_eval, inShared, inWrite, inAlt, Bool.toNat_true, Bool.toNat_false] at h ⊢
      omega
    · simp only [countP_cons_eval, inShared, inWrite, inAlt, Bool.toNat_true, Bool.toNat_false] at hWrite1 ⊢
      omega
    · exact hShared0
    · intro pc hpc c' hc'
      rcases Multiset.mem_cons.mp hpc with rfl | hm
      · exact TPc.noConfusion hc'
      · exact hSaved pc (Multiset.mem_cons_of_mem hm) c' hc'
    · intro pc hpc k' t' hkt
      rcases Multiset.mem_cons.mp hpc with rfl | hm
      · rcases hkt with h | h <;> exact TPc.noConfusion h
      · exact hTarget pc (Multiset.mem_cons_of_mem hm) k' t' hkt
    · intro _
      simp only [countP_cons_eval, inShared, inWrite, inAlt, Bool.toNat_true, Bool.toNat_false] at hAlt1 ⊢
      omega
    · simp only [countP_cons_eval, inShared, inWrite, inAlt, Bool.toNat_true, Bool.toNat_false] at hAlt1 ⊢
      omega
  | resample ts n w a c b0 b1 =>
    refine ⟨?_, ?_, ?_, ?_, ?_, ?_, ?_, ?_⟩
    · simp only [countP_cons_eval, inShared, inWrite, inAlt, Bool.toNat_true, Bool.toNat_false] at hCount ⊢
      omega
    · intro hw
      have h := hWrite0 hw
      simp only [countP_cons_eval, inShared, inWrite, inAlt, Bool.toNat_true, Bool.toNat_false] at h ⊢
      omega
    · simp only [countP_cons_eval, inShared, inWrite, inAlt, Bool.toNat_true, Bool.toNat_false] at hWrite1 ⊢
      omega
    · exact hShared0
    · intro pc hpc c' hc'
      rcases Multiset.mem_cons.mp hpc with rfl | hm
      · exact (TPc.saved.inj hc').symm
      · exact hSaved pc (Multiset.mem_cons_of_mem hm) c' hc'
    · intro pc hpc k' t' hkt
      rcases Multiset.mem_cons.mp hpc with rfl | hm
      · rcases hkt with h | h <;> exact TPc.noConfusion h
      · exact hTarget pc (Multiset.mem_cons_of_mem hm) k' t' hkt
    · intro ha
      have h := hAlt0 ha
      simp only [countP_cons_eval, inShared, inWrite, inAlt, Bool.toNat_true, Bool.toNat_false] at h ⊢
      omega
    · simp only [countP_cons_eval, inShared, inWrite, inAlt, Bool.toNat_true, Bool.toNat_false] at hAlt1 ⊢
      omega


/-- Witness for `C10_refresh_confined` at the constructor state and
`rec100`. -/
theorem C10_witness :
    get_recent_load (cb_save_start initBufState) = get_recent_load initBufState ∧
    get_recent_load (cb_save initBufState rec100) = get_recent_load initBufState ∧
    (cb_save_start initBufState).recent_loaded.getD (altIdx initBufState) [] = [] ∧
    (cb_save initBufState rec100).recent_loaded.getD (altIdx initBufState) []
      = initBufState.recent_loaded.getD (altIdx initBufState) [] ++ [rec100] ∧
    (cb_save_start initBufState).curr_idx = initBufState.curr_idx ∧
    (cb_save initBufState rec100).curr_idx = initBufState.curr_idx ∧
    (cb_save_end initBufState).recent_loaded = initBufState.recent_loaded ∧
    (cb_save_end initBufState).curr_idx = altIdx initBufState :=
  C10_refresh_confined initBufState rec100 rfl (by decide)

/-- Every reachable state of the interleaving model satisfies the
invariant. -/
theorem inv_reachable (s : CState) (h : Reachable s) : Inv s := by
  obtain ⟨s0, h0, hsteps⟩ := h
  induction hsteps with
  | refl => exact inv_init s0 h0
  | tail hab hbc ih => exact inv_step _ _ ih hbc

/-- C4 confirmed (with `RWLock` modelled from the spec, section 4.3): in
every reachable state of the interleaving model, a sampler about to read
a record inside `sample()` (it holds slot pointer `c`) reads the
currently active slot, and no in-flight refresh — by any thread — is
loading into that slot: the staging slot every loader targets is the
complement of the active index.  Hence every record a completed
`sample()` call returns comes entirely from one committed buffer
generation, never from a half-loaded staging buffer. -/
theorem C4_no_torn_reads (s : CState) (c : Bool)
    (hreach : Reachable s) (hsaved : TPc.saved c ∈ s.threads) :
    c = s.curr ∧
    ∀ pc ∈ s.threads, ∀ k t,
      (pc = TPc.rfr k (RSub.loading t) ∨ pc = TPc.rfr k (RSub.holdingWrite t)) →
      t ≠ c := by
  have hinv := inv_reachable s hreach
  have hc := hinv.hSaved _ hsaved c rfl
  refine ⟨hc, ?_⟩
  intro pc hpc k t hkt
  have ht := hinv.hTarget pc hpc k t hkt
  rw [ht, hc]
  exact Bool.not_ne_self s.curr

/-- Witness for `C4_no_torn_reads`: the three-step execution
create-Sampler, read-slot-pointer from the one-consumer starting
configuration. -/
theorem C4_witness :
    false = demoSavedC.curr ∧
    ∀ pc ∈ demoSavedC.threads, ∀ k t,
      (pc = TPc.rfr k (RSub.loading t) ∨ pc = TPc.rfr k (RSub.holdingWrite t)) →
      t ≠ false :=
  C4_no_torn_reads demoSavedC false
    ⟨demoInitC, ⟨by decide, rfl, rfl, rfl, rfl, rfl, rfl⟩,
      Relation.ReflTransGen.tail
        (Relation.ReflTransGen.tail Relation.ReflTransGen.refl
          (Step.createSampler 0 0 false false [] []))
        (Step.readSlot 0 1 false false false [] [])⟩
    (by decide)

end Elf
